import Mathlib

/-!
Verification of the book-catalog storage facade (storage/controllers.go).

The repository carries two revisions of the controllers: an earlier
package-level set of functions and the current facade built around the
`library` struct (`NewLibrary`, methods with a `useSql` backend selector).
Both are embedded below: the `Library` namespace holds the facade, the
`V1` namespace the earlier package-level variants of the two operations
whose behaviour differs between the revisions.

External effects are made explicit in the shallow embedding:
* the stored document that `GetBooks` loads and `writeData` saves becomes
  an explicit `Books` argument and result (load–mutate–save becomes state
  passing);
* the generated `uuid.NewV4().String()` becomes an explicit `freshId`
  argument;
* Go `float64` is modelled as `ℚ` (order comparisons on the values at
  play are exact);
* Go errors become `Except String` carrying the source's message strings;
* the relational (`useSql`) branches other than the pure `PriceFilter`
  guard delegate to the external database collaborator and are outside
  the embedding.
-/

/-- Modelled from the spec: the `Book` record of the data model (the Go
struct definition file is not among the sources; the spec gives the five
fields).  `Pages` is a Go `int` (`ℤ`), `Price` a Go `float64` (`ℚ`), and
`Genres` a Go string slice whose `nil` value is distinguished from an
empty non-nil slice: `none` is the nil slice. -/
structure Book where
  ID : String
  Title : String
  Pages : ℤ
  Price : ℚ
  Genres : Option (List String)
  deriving DecidableEq

/-- Modelled from the spec: the ordered `Books` collection. -/
abbrev Books := List Book

/-- Modelled from the spec: the filter parameter struct, a textual price
predicate in its `Price` field. -/
structure BookFilter where
  Price : String

/-- Decidable equality of `Except` results, so concrete runs of the
operations can be checked by `decide`. -/
instance {ε α : Type} [DecidableEq ε] [DecidableEq α] : DecidableEq (Except ε α) :=
  fun x y =>
  match x, y with
  | .error a, .error b =>
    if h : a = b then .isTrue (congrArg Except.error h)
    else .isFalse (fun hh => h (Except.error.inj hh))
  | .error _, .ok _ => .isFalse (fun hh => Except.noConfusion hh)
  | .ok _, .error _ => .isFalse (fun hh => Except.noConfusion hh)
  | .ok a, .ok b =>
    if h : a = b then .isTrue (congrArg Except.ok h)
    else .isFalse (fun hh => h (Except.ok.inj hh))

/-- The `ErrNotFound` error value of the source. -/
def ErrNotFound : String := "can't find the book with given ID"

/-- The Go zero value of `Book` (what `var b Book` declares). -/
def zeroBook : Book :=
  { ID := "", Title := "", Pages := 0, Price := 0, Genres := none }

/-- `wantedIndex`: linear scan returning the index of the first record
whose `ID` equals `id`; `ErrNotFound` when no record matches.  Both
revisions contain this helper with identical logic. -/
def wantedIndex (id : String) : Books → Except String Nat
  | [] => .error ErrNotFound
  | book :: books =>
    if id = book.ID then .ok 0 else (wantedIndex id books).map (· + 1)

/-- Decimal digit test on a character (ASCII 48–57). -/
def isDigitCh (c : Char) : Bool := 48 ≤ c.toNat && c.toNat ≤ 57

/-- Numeric value of a decimal digit character. -/
def charVal (c : Char) : ℕ := c.toNat - 48

/-- Value of a block of decimal digit characters, most significant first. -/
def digitsVal (l : List Char) : ℕ := l.foldl (fun acc c => 10 * acc + charVal c) 0

/-- Modelled from the spec: the unsigned part of `strconv.ParseFloat` on
the filter grammar — decimal digits with an optional fractional part,
consuming the whole remainder or failing. -/
def parseUFloat (s : List Char) : Option ℚ :=
  let ip := s.takeWhile isDigitCh
  match s.drop ip.length with
  | [] => if ip.isEmpty then none else some (digitsVal ip : ℚ)
  | c :: fr =>
    if c = '.' && fr.all isDigitCh && !(ip.isEmpty && fr.isEmpty) then
      some ((digitsVal ip : ℚ) + (digitsVal fr : ℚ) / (10 : ℚ) ^ fr.length)
    else none

/-- Modelled from the spec: `strconv.ParseFloat` (external standard
library) restricted to the decimal forms of the filter grammar — optional
leading sign, digits, optional fractional part; the whole remainder must
parse or the result is `none`. -/
def parseFloat (s : List Char) : Option ℚ :=
  match s with
  | [] => none
  | c :: rest =>
    if c = '-' then (parseUFloat rest).map (fun q => -q)
    else if c = '+' then parseUFloat rest
    else parseUFloat (c :: rest)

/-- The iterative collection loop of `PriceFilter`
(`wantedBooks = append(wantedBooks, book)` inside a range loop). -/
def selectBooks (p : Book → Bool) (books : Books) : Books :=
  books.foldl (fun acc book => if p book then acc ++ [book] else acc) []

namespace Library

/-- File-backend path of `(l *library) CreateBook`: the four zero-value
checks in source order, then assignment of the generated identifier and
append of the candidate to the loaded collection. -/
def CreateBook (freshId : String) (book : Book) (books : Books) :
    Except String Books :=
  if book.Genres = none then .error "not all fields are populated"
  else if book.Pages = 0 then .error "not all fields are populated"
  else if book.Price = 0 then .error "not all fields are populated"
  else if book.Title = "" then .error "not all fields are populated"
  else .ok (books ++ [{ book with ID := freshId }])

/-- File-backend path of `(l *library) GetBook`: first record whose `ID`
equals `id`, else `ErrNotFound`. -/
def GetBook (id : String) : Books → Except String Book
  | [] => .error ErrNotFound
  | book :: books => if id = book.ID then .ok book else GetBook id books

/-- File-backend path of `(l *library) RemoveBook`:
`append(books[:index], books[index+1:]...)` after `wantedIndex`. -/
def RemoveBook (id : String) (books : Books) : Except String Books :=
  match wantedIndex id books with
  | .error e => .error e
  | .ok index => .ok (books.take index ++ books.drop (index + 1))

/-- File-backend path of `(l *library) ChangeBook`: after `wantedIndex`,
the target's `Price`, `Title`, `Pages` and `Genres` are all assigned from
`changedBook` unconditionally; `ID` is not assigned. -/
def ChangeBook (id : String) (changedBook : Book) (books : Books) :
    Except String Books :=
  match wantedIndex id books with
  | .error e => .error e
  | .ok index =>
    let book := books.getD index zeroBook
    .ok (books.set index
      { book with
          Price := changedBook.Price
          Title := changedBook.Title
          Pages := changedBook.Pages
          Genres := changedBook.Genres })

/-- `(l *library) PriceFilter`.  The result is `none` exactly on the
branch where the source would panic (indexing `filter.Price[0]` on an
expression the length guard did not exclude); behind the guard that
branch is unreachable.  The `useSql` branch returns before touching the
expression or the collection. -/
def PriceFilter (useSql : Bool) (filter : BookFilter) (books : Books) :
    Option (Except String Books) :=
  if useSql then some (.error "NotImplemented")
  else if filter.Price.length ≤ 1 then some (.error "Not valid data")
  else
    match filter.Price.data with
    | [] => none
    | c :: rest =>
      if c ≠ '<' ∧ c ≠ '>' then some (.error "unsupported operation")
      else
        match parseFloat rest with
        | none => some (.error "invalid syntax")
        | some price =>
          if c = '>' then
            some (.ok (selectBooks (fun book => price < book.Price) books))
          else
            some (.ok (selectBooks (fun book => book.Price < price) books))

end Library

namespace V1

/-- Package-level `ChangeBook` of the earlier revision: each of the four
fields of the patch is copied onto the target only when it is
present/non-zero/non-empty; `ID` is not assigned. -/
def ChangeBook (id : String) (changedBook : Book) (books : Books) :
    Except String Books :=
  match wantedIndex id books with
  | .error e => .error e
  | .ok index =>
    let book := books.getD index zeroBook
    .ok (books.set index
      { book with
          Price := if changedBook.Price ≠ 0 then changedBook.Price else book.Price
          Title := if changedBook.Title ≠ "" then changedBook.Title else book.Title
          Pages := if changedBook.Pages ≠ 0 then changedBook.Pages else book.Pages
          Genres := if changedBook.Genres ≠ none then changedBook.Genres
                    else book.Genres })

/-- Package-level `PriceFilter` of the earlier revision: no length guard,
so `filter.Price[0]` on the empty expression hits the panic branch
(`none` here). -/
def PriceFilter (filter : BookFilter) (books : Books) :
    Option (Except String Books) :=
  match filter.Price.data with
  | [] => none
  | c :: rest =>
    if c = '>' then
      match parseFloat rest with
      | none => some (.error "invalid syntax")
      | some price =>
        some (.ok (selectBooks (fun book => price < book.Price) books))
    else if c = '<' then
      match parseFloat rest with
      | none => some (.error "invalid syntax")
      | some price =>
        some (.ok (selectBooks (fun book => book.Price < price) books))
    else some (.error "bad request")

end V1

/-!
The file backend's document.  `writeData` serializes the whole
collection to the storage path and `GetBooks` deserializes it back.  The
marshalling itself is done by the external JSON library, so the concrete
document syntax below is a model: an injective textual encoding of the
record fields (quoted escaped strings, digit runs with a terminator,
numerator/denominator for the numeric values) with a recursive-descent
reader, standing in for marshal/unmarshal of the five-field record.
-/

/-- One escaped character of a serialized string field: a backslash or a
quote is preceded by a backslash, any other character stands alone. -/
def escChar (c : Char) : List Char :=
  if c = '\\' ∨ c = '"' then ['\\', c] else [c]

/-- Escaping applied to a whole character list. -/
def escStr : List Char → List Char
  | [] => []
  | c :: cs => escChar c ++ escStr cs

/-- Serialized form of a string field: quoted, with escaping. -/
def encStr (s : String) : List Char := '"' :: (escStr s.data ++ ['"'])

/-- Reader for the body of a quoted string: collects characters up to the
closing quote, undoing the escapes. -/
def parseStrAux : List Char → Option (List Char × List Char)
  | [] => none
  | '"' :: rest => some ([], rest)
  | '\\' :: [] => none
  | '\\' :: d :: rest2 => (parseStrAux rest2).map (fun p => (d :: p.1, p.2))
  | c :: rest => (parseStrAux rest).map (fun p => (c :: p.1, p.2))

/-- Reader for a serialized string field. -/
def parseStr (l : List Char) : Option (String × List Char) :=
  match l with
  | [] => none
  | c :: rest =>
    if c = '"' then (parseStrAux rest).map (fun p => (String.mk p.1, p.2))
    else none

/-- The decimal digit character of value `d`. -/
def digitCh (d : ℕ) : Char := Char.ofNat (48 + d)

/-- Serialized form of a natural number: little-endian decimal digits
terminated by a semicolon. -/
def encNat (n : ℕ) : List Char :=
  ((Nat.digits 10 n).map digitCh) ++ [';']

/-- Reader collecting digit values up to the terminating semicolon. -/
def parseNatAux : List Char → Option (List ℕ × List Char)
  | [] => none
  | c :: rest =>
    if c = ';' then some ([], rest)
    else if isDigitCh c then
      (parseNatAux rest).map (fun p => (charVal c :: p.1, p.2))
    else none

/-- Reader for a serialized natural number. -/
def parseNat (l : List Char) : Option (ℕ × List Char) :=
  (parseNatAux l).map (fun p => (Nat.ofDigits 10 p.1, p.2))

/-- Serialized form of an integer: optional minus sign, then the absolute
value. -/
def encInt (i : ℤ) : List Char :=
  if i < 0 then '-' :: encNat i.natAbs else encNat i.natAbs

/-- Reader for a serialized integer. -/
def parseInt (l : List Char) : Option (ℤ × List Char) :=
  match l with
  | [] => none
  | c :: rest =>
    if c = '-' then (parseNat rest).map (fun p => (-(p.1 : ℤ), p.2))
    else (parseNat (c :: rest)).map (fun p => ((p.1 : ℤ), p.2))

/-- Serialized form of a rational price: numerator then denominator. -/
def encRat (q : ℚ) : List Char := encInt q.num ++ encNat q.den

/-- Reader for a serialized rational price. -/
def parseRat (l : List Char) : Option (ℚ × List Char) :=
  (parseInt l).bind fun p =>
    (parseNat p.2).map fun p2 => ((p.1 : ℚ) / (p2.1 : ℚ), p2.2)

/-- Serialized form of a list: its length, then the serialized elements in
order. -/
def encListWith (enc : α → List Char) (xs : List α) : List Char :=
  encNat xs.length ++ (xs.map enc).flatten

/-- Reader for exactly `n` consecutive serialized elements. -/
def parseCount (p : List Char → Option (α × List Char)) :
    ℕ → List Char → Option (List α × List Char)
  | 0, l => some ([], l)
  | n + 1, l =>
    (p l).bind fun x => (parseCount p n x.2).map fun xs => (x.1 :: xs.1, xs.2)

/-- Reader for a serialized list. -/
def parseListWith (p : List Char → Option (α × List Char)) (l : List Char) :
    Option (List α × List Char) :=
  (parseNat l).bind fun n => parseCount p n.1 n.2

/-- Serialized form of the genres slice, keeping the nil/non-nil
distinction of the source. -/
def encOptList (xs : Option (List String)) : List Char :=
  match xs with
  | none => ['N']
  | some l => 'S' :: encListWith encStr l

/-- Reader for a serialized genres slice. -/
def parseOptList (l : List Char) : Option (Option (List String) × List Char) :=
  match l with
  | [] => none
  | c :: rest =>
    if c = 'N' then some (none, rest)
    else if c = 'S' then
      (parseListWith parseStr rest).map (fun p => (some p.1, p.2))
    else none

/-- Serialized form of one record: its five fields in the stable order of
the document format. -/
def encBook (b : Book) : List Char :=
  encStr b.ID ++ encStr b.Title ++ encInt b.Pages ++ encRat b.Price ++
    encOptList b.Genres

/-- Reader for one serialized record. -/
def parseBook (l : List Char) : Option (Book × List Char) :=
  (parseStr l).bind fun pid =>
  (parseStr pid.2).bind fun pt =>
  (parseInt pt.2).bind fun pp =>
  (parseRat pp.2).bind fun ppr =>
  (parseOptList ppr.2).map fun pg =>
    ({ ID := pid.1, Title := pt.1, Pages := pp.1, Price := ppr.1,
       Genres := pg.1 }, pg.2)

/-- Modelled from the spec: `writeData` of the facade — the whole
collection serialized as one document (the JSON marshalling is the
external library; the document model is described in the header above). -/
def writeData (books : Books) : List Char := encListWith encBook books

/-- Modelled from the spec: the deserialization half of `GetBooks` —
the whole document read back into a collection, requiring the document to
be consumed in full. -/
def readData (l : List Char) : Option Books :=
  (parseListWith parseBook l).bind fun p => if p.2 = [] then some p.1 else none

/-! Helper lemmas about identifier lookup and the collection loops. -/

theorem getBook_not_mem (id : String) (books : Books)
    (h : id ∉ books.map Book.ID) :
    Library.GetBook id books = .error ErrNotFound := by
  induction books with
  | nil => rfl
  | cons b bs ih =>
    simp only [List.map_cons, List.mem_cons] at h
    push_neg at h
    simp [Library.GetBook, h.1, ih h.2]

theorem getBook_append_fresh (id : String) (books : Books) (nb : Book)
    (h : id ∉ books.map Book.ID) (hid : nb.ID = id) :
    Library.GetBook id (books ++ [nb]) = .ok nb := by
  induction books with
  | nil => simp [Library.GetBook, hid]
  | cons b bs ih =>
    simp only [List.map_cons, List.mem_cons] at h
    push_neg at h
    simp only [List.cons_append, Library.GetBook, if_neg h.1]
    exact ih h.2

theorem wantedIndex_not_mem (id : String) (books : Books)
    (h : id ∉ books.map Book.ID) :
    wantedIndex id books = .error ErrNotFound := by
  induction books with
  | nil => rfl
  | cons b bs ih =>
    simp only [List.map_cons, List.mem_cons] at h
    push_neg at h
    simp [wantedIndex, h.1, ih h.2, Except.map]

theorem wantedIndex_append (id : String) (l r : Books) (b : Book)
    (hmem : id ∉ l.map Book.ID) (hid : b.ID = id) :
    wantedIndex id (l ++ b :: r) = .ok l.length := by
  induction l with
  | nil => simp [wantedIndex, hid]
  | cons x xs ih =>
    simp only [List.map_cons, List.mem_cons] at hmem
    push_neg at hmem
    simp [wantedIndex, hmem.1, ih hmem.2, Except.map]

theorem wantedIndex_ok (id : String) (books : Books) (i : ℕ)
    (h : wantedIndex id books = .ok i) :
    i < books.length ∧ (books.getD i zeroBook).ID = id := by
  induction books generalizing i with
  | nil => simp [wantedIndex] at h
  | cons b bs ih =>
    by_cases hb : id = b.ID
    · simp only [wantedIndex, if_pos hb] at h
      cases h
      simpa using hb.symm
    · simp only [wantedIndex, if_neg hb] at h
      cases hw : wantedIndex id bs with
      | error e => rw [hw] at h; cases h
      | ok j =>
        rw [hw] at h
        cases h
        obtain ⟨hlt, hget⟩ := ih j hw
        exact ⟨by simpa using Nat.succ_lt_succ hlt, by simpa using hget⟩

theorem getD_append_len (l r : Books) (b : Book) :
    (l ++ b :: r).getD l.length zeroBook = b := by
  induction l with
  | nil => rfl
  | cons x xs ih => simpa using ih

theorem set_append_len (l r : Books) (b v : Book) :
    (l ++ b :: r).set l.length v = l ++ v :: r := by
  induction l with
  | nil => rfl
  | cons x xs ih => simp [List.set, ih]

theorem selectBooks_eq_filter (p : Book → Bool) (books : Books) :
    selectBooks p books = books.filter p := by
  have aux : ∀ (bs : Books) (acc : Books),
      bs.foldl (fun acc book => if p book then acc ++ [book] else acc) acc =
        acc ++ bs.filter p := by
    intro bs
    induction bs with
    | nil => intro acc; simp
    | cons b rest ih =>
      intro acc
      by_cases hb : p b = true
      · simp [List.foldl, hb, ih, List.filter_cons, List.append_assoc]
      · simp [List.foldl, hb, ih, List.filter_cons]
  simpa using aux books []

/-- C1: for every valid candidate (non-empty title, positive pages and
price, non-empty genres), even one already carrying an identifier,
`CreateBook` succeeds with the freshly generated non-empty identifier:
the stored record carries that identifier in place of any caller-supplied
one, the collection grows by exactly one record, and `GetBook` on the
fresh identifier returns a record equal to the candidate in every field
except the identifier. -/
theorem createBook_then_getBook (freshId : String) (book : Book) (books : Books)
    (htitle : book.Title ≠ "") (hpages : 0 < book.Pages) (hprice : 0 < book.Price)
    (hgenres : ∃ gs, book.Genres = some gs ∧ gs ≠ [])
    (hfresh : freshId ∉ books.map Book.ID) (hne : freshId ≠ "") :
    Library.CreateBook freshId book books =
      .ok (books ++ [{ book with ID := freshId }]) ∧
    (books ++ [{ book with ID := freshId }]).length = books.length + 1 ∧
    ({ book with ID := freshId } : Book).ID = freshId ∧ freshId ≠ "" ∧
    ({ book with ID := freshId } : Book).Title = book.Title ∧
    ({ book with ID := freshId } : Book).Pages = book.Pages ∧
    ({ book with ID := freshId } : Book).Price = book.Price ∧
    ({ book with ID := freshId } : Book).Genres = book.Genres ∧
    Library.GetBook freshId (books ++ [{ book with ID := freshId }]) =
      .ok { book with ID := freshId } := by
  obtain ⟨gs, hgs, -⟩ := hgenres
  have h1 : ¬ book.Genres = none := by simp [hgs]
  have h2 : ¬ book.Pages = 0 := by omega
  have h3 : ¬ book.Price = 0 := by
    intro hh
    rw [hh] at hprice
    exact lt_irrefl 0 hprice
  refine ⟨?_, by simp, rfl, hne, rfl, rfl, rfl, rfl, ?_⟩
  · simp [Library.CreateBook, h1, h2, h3, htitle]
  · exact getBook_append_fresh freshId books _ hfresh rfl

/-- Witness for C1: a concrete valid candidate that already carries a
caller-supplied identifier. -/
theorem createBook_then_getBook_witness :
    Library.CreateBook "id-1"
        { ID := "caller", Title := "Hyperion", Pages := 482, Price := 13,
          Genres := some ["scifi"] } [] =
      .ok [{ ID := "id-1", Title := "Hyperion", Pages := 482, Price := 13,
             Genres := some ["scifi"] }] ∧
    Library.GetBook "id-1"
        [{ ID := "id-1", Title := "Hyperion", Pages := 482, Price := 13,
           Genres := some ["scifi"] }] =
      .ok { ID := "id-1", Title := "Hyperion", Pages := 482, Price := 13,
            Genres := some ["scifi"] } := by
  have h := createBook_then_getBook "id-1"
      { ID := "caller", Title := "Hyperion", Pages := 482, Price := 13,
        Genres := some ["scifi"] } []
      (by decide) (by decide) (by decide) ⟨["scifi"], rfl, by decide⟩
      (by decide) (by decide)
  obtain ⟨hA, -, -, -, -, -, -, -, hE⟩ := h
  exact ⟨hA.trans (by decide), hE.trans (by decide)⟩

/-- C2 counterexample: a candidate with a negative price (and hence
violating the price>0 constraint) is accepted, stored, and the stored
record violates price>0 — the zero-value checks do not reject negatives. -/
theorem createBook_negative_price_cex :
    Library.CreateBook "fresh"
        { ID := "", Title := "T", Pages := 412, Price := -5, Genres := some ["g"] }
        [] =
      .ok [{ ID := "fresh", Title := "T", Pages := 412, Price := -5,
             Genres := some ["g"] }] ∧
    ({ ID := "fresh", Title := "T", Pages := 412, Price := -5,
       Genres := some ["g"] } : Book).Price < 0 := by
  exact ⟨by decide, by decide⟩

/-- C2 amended: `CreateBook` rejects exactly the candidates with nil
genres, zero pages, zero price or empty title — with the validation error
and without mutating the collection — and every record it stores is the
candidate with the fresh identifier, satisfying genres non-nil, pages ≠ 0,
price ≠ 0 and title non-empty (negative pages or price pass validation). -/
theorem createBook_zero_validation (freshId : String) (book : Book) (books : Books) :
    (Library.CreateBook freshId book books = .error "not all fields are populated" ↔
      book.Genres = none ∨ book.Pages = 0 ∨ book.Price = 0 ∨ book.Title = "") ∧
    ∀ books2, Library.CreateBook freshId book books = .ok books2 →
      books2 = books ++ [{ book with ID := freshId }] ∧
      book.Genres ≠ none ∧ book.Pages ≠ 0 ∧ book.Price ≠ 0 ∧ book.Title ≠ "" := by
  unfold Library.CreateBook
  split_ifs with h1 h2 h3 h4 <;> simp_all

/-- Witness for C2's amended theorem: the all-zero candidate is rejected,
and a valid candidate is stored with the fresh identifier appended. -/
theorem createBook_zero_validation_witness :
    Library.CreateBook "f"
        { ID := "", Title := "", Pages := 0, Price := 0, Genres := none } [] =
      .error "not all fields are populated" :=
  (createBook_zero_validation "f"
      { ID := "", Title := "", Pages := 0, Price := 0, Genres := none } []).1.mpr
    (Or.inl rfl)

/-- C3 counterexample: on the current facade, a patch carrying only a
price also erases the target's title, pages and genres — the claimed
skip-absent-fields merge fails on the facade's file path. -/
theorem changeBook_price_only_cex :
    Library.ChangeBook "a"
        { ID := "", Title := "", Pages := 0, Price := 15, Genres := none }
        [{ ID := "a", Title := "Dune", Pages := 412, Price := 9,
           Genres := some ["scifi"] }] =
      .ok [{ ID := "a", Title := "", Pages := 0, Price := 15, Genres := none }] ∧
    ("Dune" : String) ≠ "" := ⟨by decide, by decide⟩

/-- C3 amended: the earlier package-level `ChangeBook` overwrites exactly
the present/non-zero/non-empty fields of the patch and leaves the others
untouched, while the facade's file-path `ChangeBook` overwrites all four
of price, title, pages and genres with the patch's values unconditionally;
in both variants the identifier of the target is never altered, the merged
collection (with all other records in place) is the persisted result, and
an absent identifier fails with `ErrNotFound`. -/
theorem changeBook_merge_semantics (id : String) (patch : Book) (l r : Books)
    (b : Book) (hid : b.ID = id) (hl : id ∉ l.map Book.ID) :
    Library.ChangeBook id patch (l ++ b :: r) =
      .ok (l ++ { b with Price := patch.Price, Title := patch.Title,
                         Pages := patch.Pages, Genres := patch.Genres } :: r) ∧
    V1.ChangeBook id patch (l ++ b :: r) =
      .ok (l ++ { b with
            Price := if patch.Price ≠ 0 then patch.Price else b.Price
            Title := if patch.Title ≠ "" then patch.Title else b.Title
            Pages := if patch.Pages ≠ 0 then patch.Pages else b.Pages
            Genres := if patch.Genres ≠ none then patch.Genres
                      else b.Genres } :: r) ∧
    (∀ books : Books, id ∉ books.map Book.ID →
      Library.ChangeBook id patch books = .error ErrNotFound ∧
      V1.ChangeBook id patch books = .error ErrNotFound) := by
  have hw := wantedIndex_append id l r b hl hid
  refine ⟨?_, ?_, ?_⟩
  · unfold Library.ChangeBook
    simp only [hw, getD_append_len, set_append_len]
  · unfold V1.ChangeBook
    simp only [hw, getD_append_len, set_append_len]
  · intro books hb
    have hnm := wantedIndex_not_mem id books hb
    exact ⟨by simp [Library.ChangeBook, hnm], by simp [V1.ChangeBook, hnm]⟩

/-- Witness for C3's amended theorem: a concrete two-record collection, a
price-only patch, both merge variants, and the not-found branch. -/
theorem changeBook_merge_semantics_witness :
    Library.ChangeBook "b"
        { ID := "zzz", Title := "", Pages := 0, Price := 15, Genres := none }
        [{ ID := "a", Title := "A", Pages := 1, Price := 1, Genres := some ["g"] },
         { ID := "b", Title := "Dune", Pages := 412, Price := 9,
           Genres := some ["scifi"] }] =
      .ok [{ ID := "a", Title := "A", Pages := 1, Price := 1, Genres := some ["g"] },
           { ID := "b", Title := "", Pages := 0, Price := 15, Genres := none }] ∧
    V1.ChangeBook "b"
        { ID := "zzz", Title := "", Pages := 0, Price := 15, Genres := none }
        [{ ID := "a", Title := "A", Pages := 1, Price := 1, Genres := some ["g"] },
         { ID := "b", Title := "Dune", Pages := 412, Price := 9,
           Genres := some ["scifi"] }] =
      .ok [{ ID := "a", Title := "A", Pages := 1, Price := 1, Genres := some ["g"] },
           { ID := "b", Title := "Dune", Pages := 412, Price := 15,
             Genres := some ["scifi"] }] ∧
    Library.ChangeBook "zz"
        { ID := "zzz", Title := "", Pages := 0, Price := 15, Genres := none } [] =
      .error ErrNotFound := by
  have h := changeBook_merge_semantics "b"
      { ID := "zzz", Title := "", Pages := 0, Price := 15, Genres := none }
      [{ ID := "a", Title := "A", Pages := 1, Price := 1, Genres := some ["g"] }]
      []
      { ID := "b", Title := "Dune", Pages := 412, Price := 9,
        Genres := some ["scifi"] }
      rfl (by decide)
  have h2 := changeBook_merge_semantics "zz"
      { ID := "zzz", Title := "", Pages := 0, Price := 15, Genres := none }
      [] []
      { ID := "zz", Title := "x", Pages := 1, Price := 1, Genres := some ["g"] }
      rfl (by decide)
  exact ⟨h.1.trans (by decide), h.2.1.trans (by decide),
         (h2.2.2 [] (by decide)).1⟩

/-- C9: a successful facade `ChangeBook` on the file backend rewrites the
collection at exactly the first position whose identifier matches; every
other position is unchanged, the size and order of the collection are
unchanged, and no record is added or removed. -/
theorem changeBook_frame (id : String) (patch : Book) (books books2 : Books)
    (h : Library.ChangeBook id patch books = .ok books2) :
    ∃ i, i < books.length ∧ (books.getD i zeroBook).ID = id ∧
      books2 = books.set i
        { books.getD i zeroBook with
            Price := patch.Price, Title := patch.Title,
            Pages := patch.Pages, Genres := patch.Genres } ∧
      books2.length = books.length ∧
      ∀ j, j ≠ i → books2.get? j = books.get? j := by
  unfold Library.ChangeBook at h
  cases hw : wantedIndex id books with
  | error e => rw [hw] at h; cases h
  | ok i =>
    rw [hw] at h
    obtain ⟨hlt, hid⟩ := wantedIndex_ok id books i hw
    have hb2 : books2 = books.set i
        { books.getD i zeroBook with
            Price := patch.Price, Title := patch.Title,
            Pages := patch.Pages, Genres := patch.Genres } :=
      (Except.ok.inj h).symm
    refine ⟨i, hlt, hid, hb2, ?_, ?_⟩
    · rw [hb2]; exact List.length_set books i _
    · intro j hj
      rw [hb2]
      exact List.get?_set_ne _ _ (fun hh => hj hh.symm)

/-- Witness for C9 at a concrete two-record collection. -/
theorem changeBook_frame_witness :
    ∃ i, i < ([{ ID := "a", Title := "A", Pages := 1, Price := 1,
                 Genres := some ["g"] },
               { ID := "b", Title := "B", Pages := 2, Price := 2,
                 Genres := some ["h"] }] : Books).length ∧
      (([{ ID := "a", Title := "A", Pages := 1, Price := 1,
           Genres := some ["g"] },
         { ID := "b", Title := "B", Pages := 2, Price := 2,
           Genres := some ["h"] }] : Books).getD i zeroBook).ID = "b" ∧
      ([{ ID := "a", Title := "A", Pages := 1, Price := 1,
          Genres := some ["g"] },
        { ID := "b", Title := "t", Pages := 7, Price := 3,
          Genres := none }] : Books) =
        ([{ ID := "a", Title := "A", Pages := 1, Price := 1,
            Genres := some ["g"] },
          { ID := "b", Title := "B", Pages := 2, Price := 2,
            Genres := some ["h"] }] : Books).set i
          { ([{ ID := "a", Title := "A", Pages := 1, Price := 1,
                Genres := some ["g"] },
              { ID := "b", Title := "B", Pages := 2, Price := 2,
                Genres := some ["h"] }] : Books).getD i zeroBook with
              Price := 3, Title := "t", Pages := 7,
              Genres := none } ∧
      ([{ ID := "a", Title := "A", Pages := 1, Price := 1,
          Genres := some ["g"] },
        { ID := "b", Title := "t", Pages := 7, Price := 3,
          Genres := none }] : Books).length =
        ([{ ID := "a", Title := "A", Pages := 1, Price := 1,
            Genres := some ["g"] },
          { ID := "b", Title := "B", Pages := 2, Price := 2,
            Genres := some ["h"] }] : Books).length ∧
      ∀ j, j ≠ i →
        ([{ ID := "a", Title := "A", Pages := 1, Price := 1,
            Genres := some ["g"] },
          { ID := "b", Title := "t", Pages := 7, Price := 3,
            Genres := none }] : Books).get? j =
        ([{ ID := "a", Title := "A", Pages := 1, Price := 1,
            Genres := some ["g"] },
          { ID := "b", Title := "B", Pages := 2, Price := 2,
            Genres := some ["h"] }] : Books).get? j :=
  changeBook_frame "b"
    { ID := "", Title := "t", Pages := 7, Price := 3, Genres := none }
    [{ ID := "a", Title := "A", Pages := 1, Price := 1, Genres := some ["g"] },
     { ID := "b", Title := "B", Pages := 2, Price := 2, Genres := some ["h"] }]
    [{ ID := "a", Title := "A", Pages := 1, Price := 1, Genres := some ["g"] },
     { ID := "b", Title := "t", Pages := 7, Price := 3,
       Genres := none }]
    (by decide)

theorem removeBook_cons_ne (id : String) (book : Book) (rest : Books)
    (h : ¬ id = book.ID) :
    Library.RemoveBook id (book :: rest) =
      (Library.RemoveBook id rest).map (fun bs => book :: bs) := by
  unfold Library.RemoveBook
  simp only [wantedIndex, if_neg h]
  cases hw : wantedIndex id rest with
  | error e => simp [Except.map]
  | ok i => simp [Except.map, List.take_succ_cons, List.drop_succ_cons]

theorem removeBook_found (id : String) :
    ∀ books : Books, (books.map Book.ID).Nodup → id ∈ books.map Book.ID →
      ∃ l b r, books = l ++ b :: r ∧ b.ID = id ∧
        Library.RemoveBook id books = .ok (l ++ r) ∧
        (l ++ r).length + 1 = books.length ∧
        Library.GetBook id (l ++ r) = .error ErrNotFound := by
  intro books
  induction books with
  | nil => intro _ hmem; simp at hmem
  | cons book rest ih =>
    intro hnd hmem
    simp only [List.map_cons, List.nodup_cons] at hnd
    by_cases heq : id = book.ID
    · refine ⟨[], book, rest, rfl, heq.symm, ?_, by simp, ?_⟩
      · unfold Library.RemoveBook
        simp [wantedIndex, heq]
      · exact getBook_not_mem id rest (heq ▸ hnd.1)
    · have hmem2 : id ∈ rest.map Book.ID := by
        simp only [List.map_cons, List.mem_cons] at hmem
        rcases hmem with h | h
        · exact absurd h heq
        · exact h
      obtain ⟨l, b, r, hbooks, hbid, hrm, hlen, hget⟩ := ih hnd.2 hmem2
      refine ⟨book :: l, b, r, by rw [hbooks]; rfl, hbid, ?_, ?_, ?_⟩
      · rw [removeBook_cons_ne id book rest heq, hrm]
        rfl
      · simp only [List.length_append, List.length_cons] at hlen ⊢
        omega
      · simp only [List.cons_append, Library.GetBook, if_neg heq]
        exact hget

/-- C6: on a collection with pairwise distinct identifiers, `RemoveBook`
of a present identifier removes exactly the one matching record (the rest
of the collection is kept in order), shrinks the collection by exactly
one, and `GetBook` of that identifier on the result reports
`ErrNotFound`; `RemoveBook` of an absent identifier reports `ErrNotFound`
and produces no new collection. -/
theorem removeBook_spec (id : String) (books : Books)
    (huniq : (books.map Book.ID).Nodup) :
    (id ∈ books.map Book.ID →
      ∃ l b r, books = l ++ b :: r ∧ b.ID = id ∧
        Library.RemoveBook id books = .ok (l ++ r) ∧
        (l ++ r).length + 1 = books.length ∧
        Library.GetBook id (l ++ r) = .error ErrNotFound) ∧
    (id ∉ books.map Book.ID →
      Library.RemoveBook id books = .error ErrNotFound) := by
  constructor
  · exact removeBook_found id books huniq
  · intro hmem
    unfold Library.RemoveBook
    rw [wantedIndex_not_mem id books hmem]

/-- Witness for C6: removal of a present identifier from a concrete
two-record collection, and removal of an absent one. -/
theorem removeBook_spec_witness :
    (∃ l b r,
      ([{ ID := "a", Title := "A", Pages := 1, Price := 1, Genres := some ["g"] },
        { ID := "b", Title := "B", Pages := 2, Price := 2, Genres := some ["h"] }] :
          Books) = l ++ b :: r ∧ b.ID = "a" ∧
      Library.RemoveBook "a"
          [{ ID := "a", Title := "A", Pages := 1, Price := 1, Genres := some ["g"] },
           { ID := "b", Title := "B", Pages := 2, Price := 2, Genres := some ["h"] }] =
        .ok (l ++ r) ∧
      (l ++ r).length + 1 =
        ([{ ID := "a", Title := "A", Pages := 1, Price := 1, Genres := some ["g"] },
          { ID := "b", Title := "B", Pages := 2, Price := 2, Genres := some ["h"] }] :
            Books).length ∧
      Library.GetBook "a" (l ++ r) = .error ErrNotFound) ∧
    Library.RemoveBook "zz"
        [{ ID := "a", Title := "A", Pages := 1, Price := 1, Genres := some ["g"] },
         { ID := "b", Title := "B", Pages := 2, Price := 2, Genres := some ["h"] }] =
      .error ErrNotFound :=
  ⟨(removeBook_spec "a"
      [{ ID := "a", Title := "A", Pages := 1, Price := 1, Genres := some ["g"] },
       { ID := "b", Title := "B", Pages := 2, Price := 2, Genres := some ["h"] }]
      (by decide)).1 (by decide),
   (removeBook_spec "zz"
      [{ ID := "a", Title := "A", Pages := 1, Price := 1, Genres := some ["g"] },
       { ID := "b", Title := "B", Pages := 2, Price := 2, Genres := some ["h"] }]
      (by decide)).2 (by decide)⟩

theorem parseFloat_nil : parseFloat [] = none := rfl

/-- C4: for a well-formed comparison expression, the facade's
`PriceFilter` returns exactly the subsequence of the collection whose
price is strictly above (for the greater-than operator) respectively
strictly below (for the less-than operator) the parsed threshold, in the
original collection order. -/
theorem priceFilter_comparisons (rest : List Char) (price : ℚ) (books : Books)
    (h : parseFloat rest = some price) :
    Library.PriceFilter false { Price := String.mk ('>' :: rest) } books =
      some (.ok (books.filter (fun book => price < book.Price))) ∧
    Library.PriceFilter false { Price := String.mk ('<' :: rest) } books =
      some (.ok (books.filter (fun book => book.Price < price))) := by
  have hne : rest ≠ [] := by
    intro hr
    rw [hr, parseFloat_nil] at h
    cases h
  have hlen : ∀ c : Char, ¬ (String.mk (c :: rest)).length ≤ 1 := by
    intro c
    have : 0 < rest.length := List.length_pos.mpr hne
    simp only [String.length, List.length_cons]
    omega
  constructor
  · simp only [Library.PriceFilter, if_neg (hlen '>')]
    simp [h, selectBooks_eq_filter]
  · simp only [Library.PriceFilter, if_neg (hlen '<')]
    simp [h, selectBooks_eq_filter]

/-- Witness for C4 on a concrete two-record collection and the
expressions greater-than-ten and less-than-ten. -/
theorem priceFilter_comparisons_witness :
    Library.PriceFilter false { Price := String.mk ['>', '1', '0'] }
        [{ ID := "a", Title := "Dune", Pages := 412, Price := 9,
           Genres := some ["scifi"] },
         { ID := "b", Title := "Hyperion", Pages := 482, Price := 13,
           Genres := some ["scifi"] }] =
      some (.ok [{ ID := "b", Title := "Hyperion", Pages := 482, Price := 13,
                   Genres := some ["scifi"] }]) ∧
    Library.PriceFilter false { Price := String.mk ['<', '1', '0'] }
        [{ ID := "a", Title := "Dune", Pages := 412, Price := 9,
           Genres := some ["scifi"] },
         { ID := "b", Title := "Hyperion", Pages := 482, Price := 13,
           Genres := some ["scifi"] }] =
      some (.ok [{ ID := "a", Title := "Dune", Pages := 412, Price := 9,
                   Genres := some ["scifi"] }]) := by
  have h := priceFilter_comparisons ['1', '0'] 10
      [{ ID := "a", Title := "Dune", Pages := 412, Price := 9,
         Genres := some ["scifi"] },
       { ID := "b", Title := "Hyperion", Pages := 482, Price := 13,
         Genres := some ["scifi"] }]
      (by decide)
  exact ⟨h.1.trans (by decide), h.2.trans (by decide)⟩

/-- C5: an expression of length at most one, or whose first character is
neither comparison operator, or whose remainder fails numeric parsing,
makes the facade's `PriceFilter` fail with a parse-stage error message,
and the result is the same error for every collection — the failure does
not depend on the collection's records. -/
theorem priceFilter_parse_failure (filt : BookFilter)
    (h : filt.Price.length ≤ 1 ∨
      (∃ c rest, filt.Price.data = c :: rest ∧ c ≠ '>' ∧ c ≠ '<') ∨
      (∃ c rest, filt.Price.data = c :: rest ∧ parseFloat rest = none)) :
    ∃ msg, ∀ books : Books,
      Library.PriceFilter false filt books = some (.error msg) := by
  by_cases hlen : filt.Price.length ≤ 1
  · exact ⟨"Not valid data", fun books => by simp [Library.PriceFilter, hlen]⟩
  · rcases h with h | ⟨c, rest, hdata, hgt, hlt⟩ | ⟨c, rest, hdata, hpf⟩
    · exact absurd h hlen
    · refine ⟨"unsupported operation", fun books => ?_⟩
      simp [Library.PriceFilter, hlen, hdata, hlt, hgt]
    · by_cases hop : c ≠ '<' ∧ c ≠ '>'
      · refine ⟨"unsupported operation", fun books => ?_⟩
        simp [Library.PriceFilter, hlen, hdata, hop.1, hop.2]
      · refine ⟨"invalid syntax", fun books => ?_⟩
        have hc : c = '<' ∨ c = '>' := by
          by_cases h1 : c = '<'
          · exact Or.inl h1
          · by_cases h2 : c = '>'
            · exact Or.inr h2
            · exact absurd ⟨h1, h2⟩ hop
        rcases hc with hc | hc <;> subst hc <;>
          simp [Library.PriceFilter, hlen, hdata, hpf]

/-- Witness for C5: the malformed expressions of the spec's examples and
the empty expression, each on a concrete collection. -/
theorem priceFilter_parse_failure_witness :
    (∃ msg, ∀ books : Books,
      Library.PriceFilter false { Price := "abc" } books = some (.error msg)) ∧
    (∃ msg, ∀ books : Books,
      Library.PriceFilter false { Price := "=5" } books = some (.error msg)) ∧
    (∃ msg, ∀ books : Books,
      Library.PriceFilter false { Price := "" } books = some (.error msg)) ∧
    (∃ msg, ∀ books : Books,
      Library.PriceFilter false { Price := ">" } books = some (.error msg)) ∧
    (∃ msg, ∀ books : Books,
      Library.PriceFilter false { Price := ">x1" } books = some (.error msg)) :=
  ⟨priceFilter_parse_failure { Price := "abc" }
      (Or.inr (Or.inl ⟨'a', ['b', 'c'], rfl, by decide, by decide⟩)),
   priceFilter_parse_failure { Price := "=5" }
      (Or.inr (Or.inl ⟨'=', ['5'], rfl, by decide, by decide⟩)),
   priceFilter_parse_failure { Price := "" } (Or.inl (by decide)),
   priceFilter_parse_failure { Price := ">" } (Or.inl (by decide)),
   priceFilter_parse_failure { Price := ">x1" }
      (Or.inr (Or.inr ⟨'>', ['x', '1'], rfl, by decide⟩))⟩

/-- C8: with the relational backend selected, `PriceFilter` fails with
`NotImplemented` for every expression and every collection state — the
result does not depend on the expression (no parsing) or on the
collection (no backend query, no scan). -/
theorem priceFilter_sql_not_implemented (filt : BookFilter) (books : Books) :
    Library.PriceFilter true filt books = some (.error "NotImplemented") := rfl

/-- C10: on the file backend the facade's `PriceFilter` always produces a
result or an error: the out-of-bounds branch behind the first-character
inspection (`filter.Price[0]`) is unreachable, because the length guard
runs first. -/
theorem priceFilter_first_char_safe (filt : BookFilter) (books : Books) :
    (Library.PriceFilter false filt books).isSome = true := by
  unfold Library.PriceFilter
  by_cases hlen : filt.Price.length ≤ 1
  · simp [hlen]
  · cases hdata : filt.Price.data with
    | nil =>
      exfalso
      apply hlen
      have : filt.Price.length = 0 := by
        simp [String.length, hdata]
      omega
    | cons c rest =>
      by_cases hop : c ≠ '<' ∧ c ≠ '>'
      · simp [hlen, hdata, hop]
      · cases hpf : parseFloat rest <;> by_cases hc : c = '>' <;>
          simp [hlen, hdata, hop, hpf, hc] <;> split <;> simp

theorem parseStrAux_round (s : List Char) (rest : List Char) :
    parseStrAux (escStr s ++ '"' :: rest) = some (s, rest) := by
  induction s with
  | nil => simp [escStr, parseStrAux]
  | cons c cs ih =>
    by_cases h : c = '\\' ∨ c = '"'
    · rcases h with h | h <;> subst h <;>
        simp [escStr, escChar, parseStrAux, ih]
    · have h1 : ¬ c = '"' := fun hh => h (Or.inr hh)
      have h2 : ¬ c = '\\' := fun hh => h (Or.inl hh)
      simp [escStr, escChar, if_neg h, parseStrAux, h1, h2, ih]

theorem parseStr_round (s : String) (rest : List Char) :
    parseStr (encStr s ++ rest) = some (s, rest) := by
  obtain ⟨sd⟩ := s
  simp [encStr, parseStr, List.append_assoc, parseStrAux_round]

theorem digitCh_facts (d : ℕ) (hd : d < 10) :
    digitCh d ≠ ';' ∧ isDigitCh (digitCh d) = true ∧ charVal (digitCh d) = d := by
  interval_cases d <;> exact ⟨by decide, by decide, by decide⟩

theorem parseNatAux_round (ds : List ℕ) (h : ∀ d ∈ ds, d < 10)
    (rest : List Char) :
    parseNatAux ((ds.map digitCh) ++ ';' :: rest) = some (ds, rest) := by
  induction ds with
  | nil => simp [parseNatAux]
  | cons d t ih =>
    obtain ⟨h1, h2, h3⟩ := digitCh_facts d (h d (by simp))
    simp [parseNatAux, h1, h2, h3, ih (fun x hx => h x (by simp [hx]))]

theorem parseNat_round (n : ℕ) (rest : List Char) :
    parseNat (encNat n ++ rest) = some (n, rest) := by
  unfold parseNat encNat
  rw [List.append_assoc]
  rw [show ([';'] ++ rest) = ';' :: rest from rfl]
  rw [parseNatAux_round (Nat.digits 10 n)
    (fun d hd => Nat.digits_lt_base (by norm_num) hd) rest]
  simp [Nat.ofDigits_digits]

theorem parseInt_encNat (n : ℕ) (rest : List Char) :
    parseInt (encNat n ++ rest) = some ((n : ℤ), rest) := by
  have hmain := parseNat_round n rest
  cases hd : Nat.digits 10 n with
  | nil =>
    have he : encNat n ++ rest = ';' :: rest := by simp [encNat, hd]
    rw [he] at hmain ⊢
    simp [parseInt, hmain]
  | cons d ds =>
    have hdm : d < 10 :=
      Nat.digits_lt_base (by norm_num) (by rw [hd]; exact List.mem_cons_self d ds)
    have hne : ¬ digitCh d = '-' := by interval_cases d <;> decide
    have he : encNat n ++ rest = digitCh d :: (ds.map digitCh ++ ';' :: rest) := by
      simp [encNat, hd]
    rw [he] at hmain ⊢
    simp [parseInt, hne, hmain]

theorem parseInt_round (i : ℤ) (rest : List Char) :
    parseInt (encInt i ++ rest) = some (i, rest) := by
  unfold encInt
  by_cases h : i < 0
  · simp only [if_pos h, List.cons_append]
    simp [parseInt, parseNat_round, abs_of_neg h]
  · have hcast : ((i.natAbs : ℤ)) = i := by omega
    simp only [if_neg h]
    rw [parseInt_encNat, hcast]

theorem parseRat_round (q : ℚ) (rest : List Char) :
    parseRat (encRat q ++ rest) = some (q, rest) := by
  unfold encRat parseRat
  rw [List.append_assoc, parseInt_round]
  simp [parseNat_round, Rat.num_div_den]

theorem parseCount_round {α : Type} (p : List Char → Option (α × List Char))
    (enc : α → List Char)
    (hp : ∀ (x : α) (rest : List Char), p (enc x ++ rest) = some (x, rest)) :
    ∀ (xs : List α) (rest : List Char),
      parseCount p xs.length ((xs.map enc).flatten ++ rest) = some (xs, rest) := by
  intro xs
  induction xs with
  | nil => intro rest; simp [parseCount]
  | cons x t ih =>
    intro rest
    simp only [List.map_cons, List.flatten_cons, List.length_cons,
      List.append_assoc]
    simp [parseCount, hp, ih]

theorem parseListWith_round {α : Type} (p : List Char → Option (α × List Char))
    (enc : α → List Char)
    (hp : ∀ (x : α) (rest : List Char), p (enc x ++ rest) = some (x, rest))
    (xs : List α) (rest : List Char) :
    parseListWith p (encListWith enc xs ++ rest) = some (xs, rest) := by
  unfold encListWith parseListWith
  rw [List.append_assoc, parseNat_round]
  simp [parseCount_round p enc hp xs rest]

theorem parseOptList_round (g : Option (List String)) (rest : List Char) :
    parseOptList (encOptList g ++ rest) = some (g, rest) := by
  cases g with
  | none => simp [encOptList, parseOptList]
  | some l =>
    simp [encOptList, parseOptList,
      parseListWith_round parseStr encStr parseStr_round l rest]

theorem parseBook_round (b : Book) (rest : List Char) :
    parseBook (encBook b ++ rest) = some (b, rest) := by
  obtain ⟨bid, bt, bp, bpr, bg⟩ := b
  unfold encBook parseBook
  simp [List.append_assoc, parseStr_round, parseInt_round, parseRat_round,
    parseOptList_round]

/-- The superseded package-level `PriceFilter` has no length guard: on the
empty expression its first-character indexing reaches the out-of-bounds
branch (recorded here for contrast with the guarded facade). -/
theorem v1_priceFilter_empty_hits_oob (books : Books) :
    V1.PriceFilter { Price := "" } books = none := rfl

/-- C7: the file backend's save-then-reload round trip is the identity on
collections — every record's fields and the collection order are
reproduced exactly. -/
theorem writeData_readData_id (books : Books) :
    readData (writeData books) = some books := by
  unfold writeData readData
  have h := parseListWith_round parseBook encBook parseBook_round books []
  rw [List.append_nil] at h
  simp [h]
